import Mathlib

/-!
Verification of the Trellis 3D generator pipeline
(`trellis_3d_generator_simple.py`).

The script is a sequential batch driver: it repeatedly selects one catalog
record lacking a 3D asset, runs a download → inference → upload → record
pipeline for it inside a bounded retry loop, and accumulates run counters.
External effects (HTTP download, the Trellis inference endpoint, Supabase
storage and table operations, keyboard interrupts) are resolved by oracle
streams stored in the `World` state; each external call consumes the head of
its stream, so a `World` value determines the whole execution.
-/

namespace Trellis

/-- A row of the `zuo_3d_embedding` table. -/
structure EmbeddingRecord where
  itemNo : String
  hasAsset : Bool
  assetUrl : Option String
  assetUrlFull : Option String
deriving Repr, DecidableEq

/-- A row of the `zuo_catalog` table (the two selected columns). -/
structure CatalogRow where
  itemNo : String
  mainCategory : Option String
  itemStatus : Option String
deriving Repr, DecidableEq

/-- A row of the `zuo_images` table (the three selected columns). -/
structure ImageRow where
  itemNo : String
  image1 : Option String
  image2 : Option String
  image3 : Option String
deriving Repr, DecidableEq

/-- The three Supabase tables the script touches. -/
structure Store where
  embedding : List EmbeddingRecord
  catalog : List CatalogRow
  images : List ImageRow
deriving Repr, DecidableEq

/-- The queries issued by `get_next_pending_item` (and the exhaustion
marking in `run`, which is the same table update). -/
inductive DbOp where
  | pendingScan
  | catalogLookup (itemNo : String)
  | imageLookup (itemNo : String)
  | markUpdate (itemNo : String)
deriving Repr, DecidableEq

/-- The merged dict built at the end of `get_next_pending_item`. -/
structure CombinedItem where
  zuo_item_no : String
  main_category : Option String
  item_status : Option String
  single_image_1_url : Option String
  single_image_2_url : Option String
  single_image_3_url : Option String
  has_asset : Bool
deriving Repr, DecidableEq

/-- A Supabase storage bucket (name, public flag). -/
structure Bucket where
  name : String
  isPublic : Bool
deriving Repr, DecidableEq

/-- An object stored in Supabase storage. -/
structure StoredObject where
  bucket : String
  key : String
  data : String
  contentType : String
deriving Repr, DecidableEq

/-- The Supabase storage service state. -/
structure ObjectStore where
  buckets : List Bucket
  objects : List StoredObject
deriving Repr, DecidableEq

/-- `MAX_RETRIES` from `setup_configuration`. -/
def MAX_RETRIES : Nat := 3

/-- `RETRY_DELAY` (seconds) from `setup_configuration`. -/
def RETRY_DELAY : Nat := 30

/-- `SUPABASE_BUCKET` from `setup_configuration`. -/
def SUPABASE_BUCKET : String := "zuo-generated"

/--
Program state plus the oracles resolving external nondeterminism.
`downloadO`, `predictO`, `removeO`, `uploadO`, `updateO`, `interruptO` are
streams consumed one entry per corresponding external call (the functions
shift them on use). `selFail` says which selector queries raise.
`inferenceCalls`, `processCalls`, `uploadAttempts`, `downloadedUrls`, `sleeps`
are ghost instrumentation recording what the run did.
-/
structure World where
  store : Store
  objStore : ObjectStore
  /-- paths currently present in temporary storage -/
  tempFiles : List String
  /-- contents of generated asset files, by path -/
  fileData : List (String × String)
  /-- outcome of each `requests.get` download: `none` = raise, `some p` = temp file `p` -/
  downloadO : Nat → Option String
  /-- outcome of each inference call: `none` = raise, `some (path, bytes)` = produced GLB -/
  predictO : Nat → Option (String × String)
  /-- whether each storage `remove` call raises -/
  removeO : Nat → Bool
  /-- outcome of each storage `upload` call reaching the server: `some msg` = raise `msg` -/
  uploadO : Nat → Option String
  /-- whether each `update_database` table update raises -/
  updateO : Nat → Bool
  /-- whether a `KeyboardInterrupt` arrives at each processing attempt -/
  interruptO : Nat → Bool
  /-- which selector/mark queries raise -/
  selFail : DbOp → Bool
  inferenceCalls : Nat
  processCalls : Nat
  uploadAttempts : Nat
  downloadedUrls : List String
  sleeps : List Nat

/-- Python truthiness of an optional string (`None` and `""` are falsy). -/
def optTruthy : Option String → Bool
  | none => false
  | some s => !(s = "")

/-- The one-row-limited scan `eq('has_asset', False).limit(1)`. -/
def findPending (l : List EmbeddingRecord) : Option EmbeddingRecord :=
  l.find? (fun r => !r.hasAsset)

/-- `update({'has_asset': True}).eq('Zuo_Item_No', i)` on `zuo_3d_embedding`. -/
def markHasAsset (st : Store) (i : String) : Store :=
  { st with embedding := st.embedding.map (fun r =>
      if r.itemNo = i then { r with hasAsset := true } else r) }

/-- First result of the catalog lookup `eq('Zuo_Item_No', i)`. -/
def catalogFor (st : Store) (i : String) : Option CatalogRow :=
  (st.catalog.filter (fun r => r.itemNo = i)).head?

/-- First result of the images lookup `eq('Zuo_Item_No', i)`. -/
def imagesFor (st : Store) (i : String) : Option ImageRow :=
  (st.images.filter (fun r => r.itemNo = i)).head?

/-- Number of rows still matching the pending scan. -/
def pendingCount (st : Store) : Nat :=
  (st.embedding.filter (fun r => !r.hasAsset)).length

/-- What one pass of `get_next_pending_item`'s body decides before either
returning or recursing. -/
inductive SelDecision where
  | error
  | noItems
  | exclude (i : String)
  | accept (c : CombinedItem)
deriving Repr

/--
One pass of the body of `get_next_pending_item`: the pending scan, the
catalog lookup with the category/status exclusions, and the image lookup
with the missing-primary-image exclusion.  A raising query (including the
`has_asset` marking update of an excluded record) yields `.error`, which the
enclosing `try`/`except` turns into `None`.
-/
def selStep (w : World) : SelDecision :=
  if w.selFail .pendingScan then .error
  else
    match findPending w.store.embedding with
    | none => .noItems
    | some item =>
      if w.selFail (.catalogLookup item.itemNo) then .error
      else
        match catalogFor w.store item.itemNo with
        | none =>
          if w.selFail (.markUpdate item.itemNo) then .error else .exclude item.itemNo
        | some cat =>
          if cat.mainCategory = some "Outdoor" then
            (if w.selFail (.markUpdate item.itemNo) then .error else .exclude item.itemNo)
          else if cat.itemStatus = some "DISC" then
            (if w.selFail (.markUpdate item.itemNo) then .error else .exclude item.itemNo)
          else if w.selFail (.imageLookup item.itemNo) then .error
          else
            match imagesFor w.store item.itemNo with
            | none =>
              if w.selFail (.markUpdate item.itemNo) then .error else .exclude item.itemNo
            | some img =>
              if optTruthy img.image1 = false then
                (if w.selFail (.markUpdate item.itemNo) then .error else .exclude item.itemNo)
              else
                .accept
                  { zuo_item_no := item.itemNo
                    main_category := cat.mainCategory
                    item_status := cat.itemStatus
                    single_image_1_url := img.image1
                    single_image_2_url := img.image2
                    single_image_3_url := img.image3
                    has_asset := item.hasAsset }

/--
Fuel-indexed body of `get_next_pending_item`.  Each self-call in the Python
code happens immediately after marking the fetched pending record
`has_asset = true`, so the pending count strictly decreases and
`pendingCount + 1` fuel always suffices (see `getNextAux_fuel_irrelevant`).
The third component records whether a query raised (the `except` branch).
-/
def getNextAux : Nat → World → Option CombinedItem × World × Bool
  | 0, w => (none, w, false)
  | fuel+1, w =>
    match selStep w with
    | .error => (none, w, true)
    | .noItems => (none, w, false)
    | .exclude i => getNextAux fuel { w with store := markHasAsset w.store i }
    | .accept c => (some c, w, false)

/-- `get_next_pending_item`: selects the next eligible record, marking and
skipping excluded ones; any query error is caught and reported as `none`. -/
def get_next_pending_item (w : World) : Option CombinedItem × World × Bool :=
  getNextAux (pendingCount w.store + 1) w

/-- `download_image`: one `requests.get` plus a named temporary file on
success; a raising request creates no file. -/
def download_image (url : String) (w : World) : World × Option String :=
  let r := w.downloadO 0
  let w1 := { w with downloadO := fun n => w.downloadO (n+1)
                     downloadedUrls := w.downloadedUrls ++ [url] }
  match r with
  | none => (w1, none)
  | some path => ({ w1 with tempFiles := path :: w1.tempFiles }, some path)

/--
`generate_3d_model`: download the primary image, call the inference
endpoint once, then delete the downloaded image.  The deletion happens only
after a successful inference call, so a raising inference call leaves the
downloaded image in temporary storage.
-/
def generate_3d_model (item : CombinedItem) (w : World) : World × Option String :=
  match download_image (item.single_image_1_url.getD "") w with
  | (w1, none) => (w1, none)
  | (w1, some imagePath) =>
    let r := w1.predictO 0
    let w2 := { w1 with predictO := fun n => w1.predictO (n+1)
                        inferenceCalls := w1.inferenceCalls + 1 }
    match r with
    | none => (w2, none)
    | some (glbPath, glbBytes) =>
      let w3 := { w2 with fileData := (glbPath, glbBytes) :: w2.fileData
                          tempFiles := (glbPath :: w2.tempFiles).erase imagePath }
      (w3, some glbPath)

/-- Whether a key matches an object in the bucket. -/
def objMatch (bucket key : String) (o : StoredObject) : Bool :=
  o.bucket = bucket && o.key = key

/-- Storage delete of one key. -/
def removeObject (os : ObjectStore) (bucket key : String) : ObjectStore :=
  { os with objects := os.objects.filter (fun o => !objMatch bucket key o) }

/-- Whether the named bucket exists. -/
def bucketExists (os : ObjectStore) (b : String) : Bool :=
  os.buckets.any (fun bk => bk.name = b)

/-- Storage upload with overwrite semantics. -/
def putObject (os : ObjectStore) (bucket key data ct : String) : ObjectStore :=
  { os with objects := (removeObject os bucket key).objects ++ [⟨bucket, key, data, ct⟩] }

/-- Lookup of one stored object. -/
def getObject (os : ObjectStore) (bucket key : String) : Option StoredObject :=
  (os.objects.filter (objMatch bucket key)).head?

/-- `storage.create_bucket(name, {"public": True})`. -/
def createBucket (os : ObjectStore) (name : String) (pub : Bool) : ObjectStore :=
  { os with buckets := os.buckets ++ [⟨name, pub⟩] }

/-- The storage `remove` call; the `Bool` reports whether it raised. -/
def storageRemove (w : World) (bucket key : String) : World × Bool :=
  let r := w.removeO 0
  let w1 := { w with removeO := fun n => w.removeO (n+1) }
  if r then (w1, true)
  else ({ w1 with objStore := removeObject w1.objStore bucket key }, false)

/-- The storage `upload` call; `some msg` reports a raised error message.
A missing target bucket raises a message containing `Bucket not found`. -/
def storageUpload (w : World) (bucket key data ct : String) : World × Option String :=
  let w0 := { w with uploadAttempts := w.uploadAttempts + 1 }
  if bucketExists w0.objStore bucket = false then (w0, some "Bucket not found")
  else
    let r := w0.uploadO 0
    let w1 := { w0 with uploadO := fun n => w0.uploadO (n+1) }
    match r with
    | some msg => (w1, some msg)
    | none => ({ w1 with objStore := putObject w1.objStore bucket key data ct }, none)

/-- `get_public_url` for a key. -/
def getPublicUrl (bucket key : String) : String :=
  "https://supabase.storage/" ++ bucket ++ "/" ++ key

/-- Substring test used for Python's `"Bucket not found" in str(e)`. -/
def containsSubAux (needle : List Char) : List Char → Bool
  | [] => needle.isPrefixOf []
  | c :: rest => needle.isPrefixOf (c :: rest) || containsSubAux needle rest

/-- Substring test on strings. -/
def strContains (hay needle : String) : Bool :=
  containsSubAux needle.toList hay.toList

/--
`upload_to_supabase`: read the GLB bytes, delete any existing object at the
key (errors swallowed), upload; if the upload raises a message containing
`Bucket not found`, create the bucket public and retry the upload once,
propagating any error of the retry; any other upload error propagates.  On
success return the public URL of the key.
-/
def upload_to_supabase (item : CombinedItem) (glbPath : String) (w : World) :
    World × Except String String :=
  match w.fileData.lookup glbPath with
  | none => (w, .error "No such file or directory")
  | some glbData =>
    let filename := item.zuo_item_no ++ ".glb"
    let w1 := (storageRemove w SUPABASE_BUCKET filename).1
    match storageUpload w1 SUPABASE_BUCKET filename glbData "model/gltf-binary" with
    | (w2, none) => (w2, .ok (getPublicUrl SUPABASE_BUCKET filename))
    | (w2, some msg) =>
      if strContains msg "Bucket not found" then
        let w3 := { w2 with objStore := createBucket w2.objStore SUPABASE_BUCKET true }
        match storageUpload w3 SUPABASE_BUCKET filename glbData "model/gltf-binary" with
        | (w4, none) => (w4, .ok (getPublicUrl SUPABASE_BUCKET filename))
        | (w4, some msg2) => (w4, .error msg2)
      else (w2, .error msg)

/-- The table update performed by `update_database`. -/
def dbUpdateAsset (st : Store) (i : String) (url : String) : Store :=
  { st with embedding := st.embedding.map (fun r =>
      if r.itemNo = i then
        { r with assetUrl := some url, assetUrlFull := some url, hasAsset := true }
      else r) }

/-- `update_database`: write the asset URLs and `has_asset = true`; raises
(`false`) if the update query raises or if it matched no rows. -/
def update_database (item : CombinedItem) (assetUrl : String) (w : World) : World × Bool :=
  let raised := w.updateO 0
  let w1 := { w with updateO := fun n => w.updateO (n+1) }
  if raised then (w1, false)
  else
    let matched := w1.store.embedding.any (fun r => r.itemNo = item.zuo_item_no)
    let w2 := { w1 with store := dbUpdateAsset w1.store item.zuo_item_no assetUrl }
    if matched then (w2, true) else (w2, false)

/-- The `finally` block of `process_item`: delete the GLB temp file if it
still exists. -/
def cleanupGlb (w : World) (glbPath : String) : World :=
  if w.tempFiles.contains glbPath then
    { w with tempFiles := w.tempFiles.erase glbPath }
  else w

/--
`process_item`: one processing attempt — generate, upload, record — with a
catch-all turning any raise into `false`, and a `finally` deleting the GLB
temp file (the GLB path is still unset when generation itself raised).
`processCalls` is ghost instrumentation counting the attempts.
-/
def process_item (item : CombinedItem) (w : World) : World × Bool :=
  let w0 := { w with processCalls := w.processCalls + 1 }
  match generate_3d_model item w0 with
  | (w1, none) => (w1, false)
  | (w1, some glbPath) =>
    match upload_to_supabase item glbPath w1 with
    | (w2, .error _) => (cleanupGlb w2 glbPath, false)
    | (w2, .ok assetUrl) =>
      match update_database item assetUrl w2 with
      | (w3, ok) => (cleanupGlb w3 glbPath, ok)

/-- How the per-item retry loop in `run` ends. -/
inductive AttemptResult where
  | success
  | exhausted
  | interrupted
deriving Repr, DecidableEq

/-- The exhaustion marking in `run` (`has_asset = true`), whose failure is
caught and logged only. -/
def markProcessed (w : World) (i : String) : World :=
  if w.selFail (.markUpdate i) then w
  else { w with store := markHasAsset w.store i }

/--
The retry loop of `run` for one selected item
(`while retry_count < MAX_RETRIES and not item_success`), with structural
fuel `fuelLeft = MAX_RETRIES - retryCount` (the loop is entered with
`retry_count = 0`, so the fuel-0 case is unreachable).  Each attempt first
consumes the interrupt oracle (a `KeyboardInterrupt` aborts the whole run);
a failing attempt either sleeps `RETRY_DELAY` and retries, or — on the last
allowed attempt — counts the item failed and force-marks it processed.
-/
def retryLoopAux (item : CombinedItem) : Nat → Nat → World → World × AttemptResult
  | 0, _, w => (w, .exhausted)
  | fuelLeft+1, retryCount, w =>
    let intr := w.interruptO 0
    let w1 := { w with interruptO := fun n => w.interruptO (n+1) }
    if intr then (w1, .interrupted)
    else
      match process_item item w1 with
      | (w2, true) => (w2, .success)
      | (w2, false) =>
        if retryCount + 1 < MAX_RETRIES then
          retryLoopAux item fuelLeft (retryCount + 1)
            { w2 with sleeps := w2.sleeps ++ [RETRY_DELAY] }
        else (markProcessed w2 item.zuo_item_no, .exhausted)

/-- The retry loop entered with `retry_count = 0`. -/
def retryLoop (item : CombinedItem) (w : World) : World × AttemptResult :=
  retryLoopAux item MAX_RETRIES 0 w

/-- How a bounded-fuel unfolding of the driver loop ended. -/
inductive RunStatus where
  | completed
  | interrupted
  | outOfFuel
deriving Repr, DecidableEq

/-- The driver's final state and counters. -/
structure RunResult where
  world : World
  success : Nat
  failed : Nat
  processed : Nat
  status : RunStatus

/-- Python's `if limit and processed_count >= limit` (a `limit` of `None`
or `0` is falsy). -/
def limitReached (limit : Option Int) (processed : Nat) : Bool :=
  match limit with
  | none => false
  | some n => !(n = 0) && decide (n ≤ (processed : Int))

/-- The inter-item 3-second pause, skipped in test mode. -/
def pauseIfNeeded (testMode : Bool) (w : World) : World :=
  if testMode then w else { w with sleeps := w.sleeps ++ [3] }

/--
The `while True` loop of `run` with structural fuel (the real loop need not
terminate: if the exhaustion marking keeps failing the same item is
reselected forever).  Each iteration checks the limit, selects an item,
runs the retry loop, accounts the outcome, and pauses unless in test mode;
a `KeyboardInterrupt` returns immediately.
-/
def runLoop (limit : Option Int) (testMode : Bool) :
    Nat → World → Nat → Nat → Nat → RunResult
  | 0, w, s, f, p => ⟨w, s, f, p, .outOfFuel⟩
  | fuel+1, w, s, f, p =>
    if limitReached limit p then ⟨w, s, f, p, .completed⟩
    else
      match get_next_pending_item w with
      | (none, w1, _) => ⟨w1, s, f, p, .completed⟩
      | (some item, w1, _) =>
        match retryLoop item w1 with
        | (w2, .interrupted) => ⟨w2, s, f, p + 1, .interrupted⟩
        | (w2, .success) =>
          runLoop limit testMode fuel (pauseIfNeeded testMode w2) (s+1) f (p+1)
        | (w2, .exhausted) =>
          runLoop limit testMode fuel (pauseIfNeeded testMode w2) s (f+1) (p+1)

/-- `run`: test mode forces the limit to one item; counters start at zero. -/
def run (limit : Option Int) (testMode : Bool) (fuel : Nat) (w : World) : RunResult :=
  runLoop (if testMode then some 1 else limit) testMode fuel w 0 0 0

/-- The exclusion conditions of `get_next_pending_item` for the record with
item number `i`: empty catalog lookup, the excluded `Outdoor` category, the
excluded `DISC` status, or a missing/empty primary image URL. -/
def isExcluded (st : Store) (i : String) : Bool :=
  match catalogFor st i with
  | none => true
  | some cat =>
    if cat.mainCategory = some "Outdoor" then true
    else if cat.itemStatus = some "DISC" then true
    else
      match imagesFor st i with
      | none => true
      | some img => optTruthy img.image1 = false

/-- Every embedding row for item `i` carries `has_asset = true`, so the
pending scan can never surface `i` again. -/
def allMarked (st : Store) (i : String) : Prop :=
  ∀ r ∈ st.embedding, r.itemNo = i → r.hasAsset = true

instance (st : Store) (i : String) : Decidable (allMarked st i) := by
  unfold allMarked; infer_instance

/-! ### Concrete scenarios -/

/-- A world whose external services all behave: downloads and inference
succeed, storage and table operations never raise, nobody interrupts. -/
def healthyWorld (st : Store) (os : ObjectStore) : World where
  store := st
  objStore := os
  tempFiles := []
  fileData := []
  downloadO := fun _ => some "/tmp/img.jpg"
  predictO := fun _ => some ("/tmp/model.glb", "B")
  removeO := fun _ => false
  uploadO := fun _ => none
  updateO := fun _ => false
  interruptO := fun _ => false
  selFail := fun _ => false
  inferenceCalls := 0
  processCalls := 0
  uploadAttempts := 0
  downloadedUrls := []
  sleeps := []

/-- The storage state with just the configured bucket present and empty. -/
def mainBucketOnly : ObjectStore := ⟨[⟨SUPABASE_BUCKET, true⟩], []⟩

/-- One eligible record `A100` (Indoor, ACTIVE, with a primary image). -/
def e2eStore : Store :=
  { embedding := [⟨"A100", false, none, none⟩]
    catalog := [⟨"A100", some "Indoor", some "ACTIVE"⟩]
    images := [⟨"A100", some "http://x/img.jpg", none, none⟩] }

/-- The merged item the selector produces for `e2eStore`. -/
def a100Item : CombinedItem :=
  ⟨"A100", some "Indoor", some "ACTIVE", some "http://x/img.jpg", none, none, false⟩

/-- The end-to-end scenario world: one eligible record, a download yielding
`/tmp/a100.jpg`, inference yielding GLB bytes `B` at `/tmp/a100.glb`. -/
def e2eWorld : World :=
  { healthyWorld e2eStore mainBucketOnly with
      downloadO := fun _ => some "/tmp/a100.jpg"
      predictO := fun _ => some ("/tmp/a100.glb", "B") }

/-- The exhaustion scenario: same record, every inference call raises. -/
def predictFailWorld : World :=
  { e2eWorld with predictO := fun _ => none }

/-- A fail-then-succeed scenario: the first download raises, every later
one succeeds, so attempt 1 fails and attempt 2 succeeds with one retry
still allowed. -/
def secondTryWorld : World :=
  { e2eWorld with downloadO := fun n => if n = 0 then none else some "/tmp/a100.jpg" }

/-- Five eligible records for the limit-enforcement scenario. -/
def fiveStore : Store :=
  { embedding := [⟨"A1", false, none, none⟩, ⟨"A2", false, none, none⟩,
                  ⟨"A3", false, none, none⟩, ⟨"A4", false, none, none⟩,
                  ⟨"A5", false, none, none⟩]
    catalog := [⟨"A1", some "Indoor", some "ACTIVE"⟩, ⟨"A2", some "Indoor", some "ACTIVE"⟩,
                ⟨"A3", some "Indoor", some "ACTIVE"⟩, ⟨"A4", some "Indoor", some "ACTIVE"⟩,
                ⟨"A5", some "Indoor", some "ACTIVE"⟩]
    images := [⟨"A1", some "http://x/1.jpg", none, none⟩, ⟨"A2", some "http://x/2.jpg", none, none⟩,
               ⟨"A3", some "http://x/3.jpg", none, none⟩, ⟨"A4", some "http://x/4.jpg", none, none⟩,
               ⟨"A5", some "http://x/5.jpg", none, none⟩] }

/-- The limit-enforcement scenario world. -/
def fiveWorld : World := healthyWorld fiveStore mainBucketOnly

/-- A store whose first pending record `B1` is an excluded Outdoor item,
followed by the eligible `A100`. -/
def outdoorStore : Store :=
  { embedding := [⟨"B1", false, none, none⟩, ⟨"A100", false, none, none⟩]
    catalog := [⟨"B1", some "Outdoor", some "ACTIVE"⟩, ⟨"A100", some "Indoor", some "ACTIVE"⟩]
    images := [⟨"B1", some "http://x/b1.jpg", none, none⟩, ⟨"A100", some "http://x/img.jpg", none, none⟩] }

/-- World for the exclusion scenario. -/
def outdoorWorld : World := healthyWorld outdoorStore mainBucketOnly

/-- World whose pending scan raises. -/
def selErrWorld : World :=
  { e2eWorld with selFail := fun op => decide (op = DbOp.pendingScan) }

/-- World holding GLB bytes `B` at `/tmp/a100.glb`, ready for upload. -/
def uploadReadyWorld : World :=
  { e2eWorld with fileData := [("/tmp/a100.glb", "B")] }

/-! ### Selector lemmas -/

theorem findPending_mem {l : List EmbeddingRecord} {rec : EmbeddingRecord}
    (h : findPending l = some rec) : rec ∈ l ∧ rec.hasAsset = false := by
  refine ⟨List.mem_of_find?_eq_some h, ?_⟩
  have := List.find?_some h
  simpa using this

theorem allMarked_markHasAsset_self (st : Store) (i : String) :
    allMarked (markHasAsset st i) i := by
  intro r hr _
  unfold markHasAsset at hr
  simp only [List.mem_map] at hr
  obtain ⟨r0, _, rfl⟩ := hr
  by_cases h : r0.itemNo = i <;> simp_all

theorem allMarked_markHasAsset_mono {st : Store} {i : String} (j : String)
    (hA : allMarked st i) : allMarked (markHasAsset st j) i := by
  intro r hr hi
  unfold markHasAsset at hr
  simp only [List.mem_map] at hr
  obtain ⟨r0, hr0, rfl⟩ := hr
  by_cases h : r0.itemNo = j
  · simp [h]
  · simp only [h, if_false] at hi ⊢
    exact hA r0 hr0 hi

theorem markHasAsset_assetUrl {st : Store} {i : String} (j : String)
    (hU : ∀ r ∈ st.embedding, r.itemNo = i → r.assetUrl = none) :
    ∀ r ∈ (markHasAsset st j).embedding, r.itemNo = i → r.assetUrl = none := by
  intro r hr hi
  unfold markHasAsset at hr
  simp only [List.mem_map] at hr
  obtain ⟨r0, hr0, rfl⟩ := hr
  by_cases h : r0.itemNo = j
  · simp only [h, if_true] at hi ⊢
    exact hU r0 hr0 (h.trans hi)
  · simp only [h, if_false] at hi ⊢
    exact hU r0 hr0 hi

theorem selStep_accept {w : World} {c : CombinedItem} (h : selStep w = .accept c) :
    ∃ rec, findPending w.store.embedding = some rec
      ∧ c.zuo_item_no = rec.itemNo ∧ rec.hasAsset = false := by
  unfold selStep at h
  split at h
  · exact absurd h (by simp)
  · split at h
    · exact absurd h (by simp)
    next item heq =>
      split at h
      · exact absurd h (by simp)
      · split at h
        · split at h <;> exact absurd h (by simp)
        · split at h
          · split at h <;> exact absurd h (by simp)
          · split at h
            · split at h <;> exact absurd h (by simp)
            · split at h
              · exact absurd h (by simp)
              · split at h
                · split at h <;> exact absurd h (by simp)
                · split at h
                  · split at h <;> exact absurd h (by simp)
                  · refine ⟨item, heq, ?_, (findPending_mem heq).2⟩
                    cases h
                    rfl

theorem selStep_exclude {w : World} {i : String} (h : selStep w = .exclude i) :
    ∃ rec, findPending w.store.embedding = some rec
      ∧ rec.itemNo = i ∧ rec.hasAsset = false := by
  unfold selStep at h
  split at h
  · exact absurd h (by simp)
  · split at h
    · exact absurd h (by simp)
    next item heq =>
      have hbase : item.itemNo = i → ∃ rec, findPending w.store.embedding = some rec
          ∧ rec.itemNo = i ∧ rec.hasAsset = false :=
        fun hi => ⟨item, heq, hi, (findPending_mem heq).2⟩
      split at h
      · exact absurd h (by simp)
      · split at h
        · split at h
          · exact absurd h (by simp)
          · cases h; exact hbase rfl
        · split at h
          · split at h
            · exact absurd h (by simp)
            · cases h; exact hbase rfl
          · split at h
            · split at h
              · exact absurd h (by simp)
              · cases h; exact hbase rfl
            · split at h
              · exact absurd h (by simp)
              · split at h
                · split at h
                  · exact absurd h (by simp)
                  · cases h; exact hbase rfl
                · split at h
                  · split at h
                    · exact absurd h (by simp)
                    · cases h; exact hbase rfl
                  · exact absurd h (by simp)

/-- A record all of whose rows are marked is never returned by the selector,
and stays marked. -/
theorem getNextAux_allMarked :
    ∀ (fuel : Nat) (w : World) (i : String), allMarked w.store i →
      allMarked (getNextAux fuel w).2.1.store i
      ∧ ∀ c, (getNextAux fuel w).1 = some c → c.zuo_item_no ≠ i := by
  intro fuel
  induction fuel with
  | zero => intro w i h; exact ⟨h, by simp [getNextAux]⟩
  | succ n ih =>
    intro w i h
    simp only [getNextAux]
    cases hs : selStep w with
    | error => exact ⟨h, by simp⟩
    | noItems => exact ⟨h, by simp⟩
    | exclude j => exact ih _ i (allMarked_markHasAsset_mono j h)
    | accept c =>
      refine ⟨h, ?_⟩
      intro c2 hc2
      obtain ⟨rec, hfind, hno, hA⟩ := selStep_accept hs
      cases hc2
      intro hEq
      have hmem := (findPending_mem hfind).1
      have := h rec hmem (hno ▸ hEq)
      rw [this] at hA
      exact absurd hA (by simp)

/-- A raised selector query always results in `none`, never in an item. -/
theorem getNextAux_err :
    ∀ (fuel : Nat) (w : World), (getNextAux fuel w).2.2 = true → (getNextAux fuel w).1 = none := by
  intro fuel
  induction fuel with
  | zero => intro w _; simp [getNextAux]
  | succ n ih =>
    intro w
    simp only [getNextAux]
    cases hs : selStep w with
    | error => intro _; rfl
    | noItems => intro _; rfl
    | exclude j => exact ih _
    | accept c => intro h; exact absurd h (by simp)

/-- The selector only mutates the `store` component of the world. -/
theorem getNextAux_world :
    ∀ (fuel : Nat) (w : World), ∃ st, (getNextAux fuel w).2.1 = { w with store := st } := by
  intro fuel
  induction fuel with
  | zero => intro w; exact ⟨w.store, rfl⟩
  | succ n ih =>
    intro w
    simp only [getNextAux]
    cases hs : selStep w with
    | error => exact ⟨w.store, rfl⟩
    | noItems => exact ⟨w.store, rfl⟩
    | exclude j =>
      obtain ⟨st, hst⟩ := ih { w with store := markHasAsset w.store j }
      exact ⟨st, hst⟩
    | accept c => exact ⟨w.store, rfl⟩

/-! ### Fuel sufficiency for the selector -/

theorem countP_map_mark_le (l : List EmbeddingRecord) (i : String) :
    (l.map (fun r => if r.itemNo = i then { r with hasAsset := true } else r)).countP
        (fun r => !r.hasAsset)
      ≤ l.countP (fun r => !r.hasAsset) := by
  induction l with
  | nil => simp
  | cons r t ih =>
    simp only [List.map_cons, List.countP_cons]
    by_cases h : r.itemNo = i
    · simp only [h, if_true]
      have : (!EmbeddingRecord.hasAsset { r with hasAsset := true }) = false := by simp
      rw [this]
      simp only [Bool.false_eq_true, if_false]
      omega
    · simp only [h, if_false]
      omega

theorem countP_map_mark_lt (l : List EmbeddingRecord) (i : String)
    (h : ∃ r ∈ l, r.itemNo = i ∧ r.hasAsset = false) :
    (l.map (fun r => if r.itemNo = i then { r with hasAsset := true } else r)).countP
        (fun r => !r.hasAsset)
      < l.countP (fun r => !r.hasAsset) := by
  induction l with
  | nil => simp at h
  | cons r t ih =>
    simp only [List.map_cons, List.countP_cons]
    by_cases hr : r.itemNo = i ∧ r.hasAsset = false
    · simp only [hr.1, if_true]
      have h1 : (!EmbeddingRecord.hasAsset { r with hasAsset := true }) = false := by simp
      have h2 : (!r.hasAsset) = true := by simp [hr.2]
      rw [h1, h2]
      have := countP_map_mark_le t i
      simp only [Bool.false_eq_true, if_false, if_true]
      omega
    · have hwit : ∃ r2 ∈ t, r2.itemNo = i ∧ r2.hasAsset = false := by
        obtain ⟨r2, hr2m, hr2⟩ := h
        rcases List.mem_cons.mp hr2m with rfl | hmem
        · exact absurd hr2 hr
        · exact ⟨r2, hmem, hr2⟩
      have := ih hwit
      by_cases hi : r.itemNo = i
      · have hA : r.hasAsset = true := by
          rcases Bool.eq_false_or_eq_true r.hasAsset with hf | ht
          · exact hf
          · exact absurd ⟨hi, ht⟩ hr
        simp only [hi, if_true]
        have h1 : (!EmbeddingRecord.hasAsset { r with hasAsset := true }) = false := by simp
        have h2 : (!r.hasAsset) = false := by simp [hA]
        rw [h1, h2]
        omega
      · simp only [hi, if_false]
        omega

theorem pendingCount_mark_lt {st : Store} {rec : EmbeddingRecord}
    (hm : rec ∈ st.embedding) (hA : rec.hasAsset = false) :
    pendingCount (markHasAsset st rec.itemNo) < pendingCount st := by
  unfold pendingCount markHasAsset
  rw [← List.countP_eq_length_filter, ← List.countP_eq_length_filter]
  exact countP_map_mark_lt st.embedding rec.itemNo ⟨rec, hm, rfl, hA⟩

/-- The result of the selector body is the same at any sufficient fuel, so
`pendingCount + 1` faithfully realises the unbounded recursion. -/
theorem getNextAux_fuel_irrelevant :
    ∀ (f1 f2 : Nat) (w : World), pendingCount w.store < f1 → pendingCount w.store < f2 →
      getNextAux f1 w = getNextAux f2 w := by
  intro f1
  induction f1 with
  | zero => intro f2 w h1 _; exact absurd h1 (by omega)
  | succ a ih =>
    intro f2 w h1 h2
    cases f2 with
    | zero => exact absurd h2 (by omega)
    | succ b =>
      simp only [getNextAux]
      cases hs : selStep w with
      | error => rfl
      | noItems => rfl
      | accept c => rfl
      | exclude j =>
        obtain ⟨rec, hfind, rfl, hAs⟩ := selStep_exclude hs
        have hlt : pendingCount (markHasAsset w.store rec.itemNo) < pendingCount w.store :=
          pendingCount_mark_lt (findPending_mem hfind).1 hAs
        have ha : pendingCount ({ w with store := markHasAsset w.store rec.itemNo } : World).store < a := by
          show pendingCount (markHasAsset w.store rec.itemNo) < a
          omega
        have hb : pendingCount ({ w with store := markHasAsset w.store rec.itemNo } : World).store < b := by
          show pendingCount (markHasAsset w.store rec.itemNo) < b
          omega
        exact ih b { w with store := markHasAsset w.store rec.itemNo } ha hb

/-- An excluded fetched record is marked and the selector proceeds exactly
as a fresh call on the marked store would. -/
theorem get_next_after_exclude {w : World} {j : String} (hs : selStep w = .exclude j) :
    get_next_pending_item w
      = get_next_pending_item { w with store := markHasAsset w.store j } := by
  obtain ⟨rec, hfind, rfl, hAs⟩ := selStep_exclude hs
  have hlt : pendingCount (markHasAsset w.store rec.itemNo) < pendingCount w.store :=
    pendingCount_mark_lt (findPending_mem hfind).1 hAs
  unfold get_next_pending_item
  simp only [getNextAux, hs]
  have ha : pendingCount ({ w with store := markHasAsset w.store rec.itemNo } : World).store
      < pendingCount w.store := by
    show pendingCount (markHasAsset w.store rec.itemNo) < pendingCount w.store
    omega
  exact getNextAux_fuel_irrelevant (pendingCount w.store)
    (pendingCount ({ w with store := markHasAsset w.store rec.itemNo } : World).store + 1)
    { w with store := markHasAsset w.store rec.itemNo } ha (by omega)

/-! ### Frame lemmas for the per-item pipeline -/

theorem download_image_frame (u : String) (w : World) :
    (download_image u w).1.store = w.store
    ∧ (download_image u w).1.selFail = w.selFail
    ∧ (download_image u w).1.predictO = w.predictO
    ∧ (download_image u w).1.interruptO = w.interruptO
    ∧ (download_image u w).1.processCalls = w.processCalls
    ∧ (download_image u w).1.sleeps = w.sleeps
    ∧ (download_image u w).1.inferenceCalls = w.inferenceCalls := by
  unfold download_image
  cases w.downloadO 0 <;> simp

theorem generate_frame (item : CombinedItem) (w : World) :
    (generate_3d_model item w).1.store = w.store
    ∧ (generate_3d_model item w).1.selFail = w.selFail
    ∧ (generate_3d_model item w).1.interruptO = w.interruptO
    ∧ (generate_3d_model item w).1.processCalls = w.processCalls
    ∧ (generate_3d_model item w).1.sleeps = w.sleeps
    ∧ (generate_3d_model item w).1.inferenceCalls ≤ w.inferenceCalls + 1 := by
  unfold generate_3d_model download_image
  cases w.downloadO 0 with
  | none => simp
  | some p =>
    simp only []
    cases w.predictO 0 <;> simp

theorem storageRemove_frame (w : World) (b k : String) :
    (storageRemove w b k).1.store = w.store
    ∧ (storageRemove w b k).1.selFail = w.selFail
    ∧ (storageRemove w b k).1.predictO = w.predictO
    ∧ (storageRemove w b k).1.interruptO = w.interruptO
    ∧ (storageRemove w b k).1.processCalls = w.processCalls
    ∧ (storageRemove w b k).1.sleeps = w.sleeps
    ∧ (storageRemove w b k).1.inferenceCalls = w.inferenceCalls
    ∧ (storageRemove w b k).1.tempFiles = w.tempFiles
    ∧ (storageRemove w b k).1.objStore.buckets = w.objStore.buckets
    ∧ (storageRemove w b k).1.uploadO = w.uploadO
    ∧ (storageRemove w b k).1.fileData = w.fileData
    ∧ (storageRemove w b k).1.uploadAttempts = w.uploadAttempts := by
  unfold storageRemove
  cases w.removeO 0 <;> simp [removeObject]

theorem storageUpload_frame (w : World) (b k d ct : String) :
    (storageUpload w b k d ct).1.store = w.store
    ∧ (storageUpload w b k d ct).1.selFail = w.selFail
    ∧ (storageUpload w b k d ct).1.predictO = w.predictO
    ∧ (storageUpload w b k d ct).1.interruptO = w.interruptO
    ∧ (storageUpload w b k d ct).1.processCalls = w.processCalls
    ∧ (storageUpload w b k d ct).1.sleeps = w.sleeps
    ∧ (storageUpload w b k d ct).1.inferenceCalls = w.inferenceCalls
    ∧ (storageUpload w b k d ct).1.tempFiles = w.tempFiles := by
  unfold storageUpload
  cases h : bucketExists w.objStore b
  · simp [h]
  · simp only [h]
    cases w.uploadO 0 <;> simp [putObject]

theorem upload_frame (item : CombinedItem) (g : String) (w : World) :
    (upload_to_supabase item g w).1.store = w.store
    ∧ (upload_to_supabase item g w).1.selFail = w.selFail
    ∧ (upload_to_supabase item g w).1.predictO = w.predictO
    ∧ (upload_to_supabase item g w).1.interruptO = w.interruptO
    ∧ (upload_to_supabase item g w).1.processCalls = w.processCalls
    ∧ (upload_to_supabase item g w).1.sleeps = w.sleeps
    ∧ (upload_to_supabase item g w).1.inferenceCalls = w.inferenceCalls
    ∧ (upload_to_supabase item g w).1.tempFiles = w.tempFiles := by
  unfold upload_to_supabase
  cases hl : w.fileData.lookup g with
  | none => simp
  | some d =>
    simp only []
    have h1 := storageRemove_frame w SUPABASE_BUCKET (item.zuo_item_no ++ ".glb")
    set w1 := (storageRemove w SUPABASE_BUCKET (item.zuo_item_no ++ ".glb")).1 with hw1
    obtain ⟨e1, e2, e3, e4, e5, e6, e7, e8, _, _, _, _⟩ := h1
    have h2 := storageUpload_frame w1 SUPABASE_BUCKET (item.zuo_item_no ++ ".glb") d "model/gltf-binary"
    rcases hup : storageUpload w1 SUPABASE_BUCKET (item.zuo_item_no ++ ".glb") d "model/gltf-binary"
      with ⟨w2, r⟩
    rw [hup] at h2
    obtain ⟨f1, f2, f3, f4, f5, f6, f7, f8⟩ := h2
    cases r with
    | none => simp_all
    | some msg =>
      simp only []
      by_cases hc : strContains msg "Bucket not found" = true
      · simp only [hc, if_true]
        have h3 := storageUpload_frame { w2 with objStore := createBucket w2.objStore SUPABASE_BUCKET true }
          SUPABASE_BUCKET (item.zuo_item_no ++ ".glb") d "model/gltf-binary"
        rcases hup2 : storageUpload { w2 with objStore := createBucket w2.objStore SUPABASE_BUCKET true }
            SUPABASE_BUCKET (item.zuo_item_no ++ ".glb") d "model/gltf-binary" with ⟨w3, r2⟩
        rw [hup2] at h3
        cases r2 <;> simp_all
      · simp only [hc, if_false]
        simp_all

theorem update_database_frame (item : CombinedItem) (u : String) (w : World) :
    (update_database item u w).1.selFail = w.selFail
    ∧ (update_database item u w).1.predictO = w.predictO
    ∧ (update_database item u w).1.interruptO = w.interruptO
    ∧ (update_database item u w).1.processCalls = w.processCalls
    ∧ (update_database item u w).1.sleeps = w.sleeps
    ∧ (update_database item u w).1.inferenceCalls = w.inferenceCalls
    ∧ (update_database item u w).1.tempFiles = w.tempFiles := by
  unfold update_database
  cases w.updateO 0
  · simp only [Bool.false_eq_true, if_false]
    split <;> simp
  · simp

theorem cleanupGlb_frame (w : World) (g : String) :
    (cleanupGlb w g).store = w.store
    ∧ (cleanupGlb w g).selFail = w.selFail
    ∧ (cleanupGlb w g).predictO = w.predictO
    ∧ (cleanupGlb w g).interruptO = w.interruptO
    ∧ (cleanupGlb w g).processCalls = w.processCalls
    ∧ (cleanupGlb w g).sleeps = w.sleeps
    ∧ (cleanupGlb w g).inferenceCalls = w.inferenceCalls := by
  unfold cleanupGlb
  split <;> simp

theorem markProcessed_frame (w : World) (i : String) :
    (markProcessed w i).selFail = w.selFail
    ∧ (markProcessed w i).predictO = w.predictO
    ∧ (markProcessed w i).interruptO = w.interruptO
    ∧ (markProcessed w i).processCalls = w.processCalls
    ∧ (markProcessed w i).sleeps = w.sleeps
    ∧ (markProcessed w i).inferenceCalls = w.inferenceCalls := by
  unfold markProcessed
  split <;> simp

/-- Each call of `process_item` is exactly one attempt: the ghost counter
increases by one and no sleeps happen inside an attempt. -/
theorem process_item_frame (item : CombinedItem) (w : World) :
    (process_item item w).1.processCalls = w.processCalls + 1
    ∧ (process_item item w).1.sleeps = w.sleeps
    ∧ (process_item item w).1.selFail = w.selFail
    ∧ (process_item item w).1.interruptO = w.interruptO
    ∧ (process_item item w).1.inferenceCalls ≤ w.inferenceCalls + 1 := by
  unfold process_item
  have hg := generate_frame item { w with processCalls := w.processCalls + 1 }
  rcases hgen : generate_3d_model item { w with processCalls := w.processCalls + 1 } with ⟨w1, g⟩
  rw [hgen] at hg
  obtain ⟨g1, g2, g3, g4, g5, g6⟩ := hg
  cases g with
  | none => simp_all
  | some glbPath =>
    simp only []
    have hu := upload_frame item glbPath w1
    rcases hupl : upload_to_supabase item glbPath w1 with ⟨w2, r⟩
    rw [hupl] at hu
    obtain ⟨u1, u2, u3, u4, u5, u6, u7, u8⟩ := hu
    cases r with
    | error msg =>
      have hc := cleanupGlb_frame w2 glbPath
      simp_all
    | ok assetUrl =>
      have hd := update_database_frame item assetUrl w2
      rcases hupd : update_database item assetUrl w2 with ⟨w3, ok⟩
      rw [hupd] at hd
      obtain ⟨d1, d2, d3, d4, d5, d6, d7⟩ := hd
      have hc := cleanupGlb_frame w3 glbPath
      simp_all

/-- When every inference call fails, an attempt fails without touching the
database and the failure persists to later attempts: the result world keeps
an all-failing inference oracle, the same store, interrupt oracle and query
oracle, and exactly one more attempt is recorded. -/
theorem process_item_predict_fail {w : World} (item : CombinedItem)
    (hpred : ∀ n, w.predictO n = none) :
    (process_item item w).2 = false
    ∧ (process_item item w).1.store = w.store
    ∧ (process_item item w).1.selFail = w.selFail
    ∧ (process_item item w).1.interruptO = w.interruptO
    ∧ (process_item item w).1.sleeps = w.sleeps
    ∧ (process_item item w).1.processCalls = w.processCalls + 1
    ∧ (∀ n, (process_item item w).1.predictO n = none) := by
  unfold process_item generate_3d_model download_image
  cases hd : w.downloadO 0 <;> simp [hd, hpred]

/-- The per-item retry loop performs at most `fuelLeft` further attempts
and at most that many inference calls. -/
theorem retryLoopAux_calls_le (item : CombinedItem) :
    ∀ (fuelLeft retryCount : Nat) (w : World),
      (retryLoopAux item fuelLeft retryCount w).1.processCalls ≤ w.processCalls + fuelLeft
      ∧ (retryLoopAux item fuelLeft retryCount w).1.inferenceCalls ≤ w.inferenceCalls + fuelLeft := by
  intro fuelLeft
  induction fuelLeft with
  | zero => intro rc w; simp [retryLoopAux]
  | succ n ih =>
    intro rc w
    have hp := process_item_frame item { w with interruptO := fun n => w.interruptO (n+1) }
    rcases hpi : process_item item { w with interruptO := fun n => w.interruptO (n+1) }
      with ⟨w2, ok⟩
    rw [hpi] at hp
    have p1 : w2.processCalls = w.processCalls + 1 := by simpa using hp.1
    have p5 : w2.inferenceCalls ≤ w.inferenceCalls + 1 := by simpa using hp.2.2.2.2
    simp only [retryLoopAux]
    cases hint : w.interruptO 0 with
    | true => simp
    | false =>
      simp only [Bool.false_eq_true, if_false, hpi]
      cases ok with
      | true =>
        exact ⟨by simpa using (by omega : w2.processCalls ≤ w.processCalls + (n+1)),
               by simpa using (by omega : w2.inferenceCalls ≤ w.inferenceCalls + (n+1))⟩
      | false =>
        by_cases hrc : rc + 1 < MAX_RETRIES
        · simp only [hrc, if_true]
          have h1 := (ih (rc + 1) { w2 with sleeps := w2.sleeps ++ [RETRY_DELAY] }).1
          have h2 := (ih (rc + 1) { w2 with sleeps := w2.sleeps ++ [RETRY_DELAY] }).2
          have h1' : (retryLoopAux item n (rc+1)
              { w2 with sleeps := w2.sleeps ++ [RETRY_DELAY] }).1.processCalls
              ≤ w2.processCalls + n := by simpa using h1
          have h2' : (retryLoopAux item n (rc+1)
              { w2 with sleeps := w2.sleeps ++ [RETRY_DELAY] }).1.inferenceCalls
              ≤ w2.inferenceCalls + n := by simpa using h2
          exact ⟨by omega, by omega⟩
        · simp only [hrc, if_false]
          have hm1 : (markProcessed w2 item.zuo_item_no).processCalls = w2.processCalls :=
            (markProcessed_frame w2 item.zuo_item_no).2.2.2.1
          have hm2 : (markProcessed w2 item.zuo_item_no).inferenceCalls = w2.inferenceCalls :=
            (markProcessed_frame w2 item.zuo_item_no).2.2.2.2.2
          exact ⟨by simp only [hm1]; omega, by simp only [hm2]; omega⟩

/-- The retry loop only adds `RETRY_DELAY` sleeps. -/
theorem retryLoopAux_sleeps (item : CombinedItem) :
    ∀ (fuelLeft retryCount : Nat) (w : World) (x : Nat),
      x ∈ (retryLoopAux item fuelLeft retryCount w).1.sleeps →
      x ∈ w.sleeps ∨ x = RETRY_DELAY := by
  intro fuelLeft
  induction fuelLeft with
  | zero => intro rc w x h; exact Or.inl (by simpa [retryLoopAux] using h)
  | succ n ih =>
    intro rc w x
    have hp := process_item_frame item { w with interruptO := fun n => w.interruptO (n+1) }
    rcases hpi : process_item item { w with interruptO := fun n => w.interruptO (n+1) }
      with ⟨w2, ok⟩
    rw [hpi] at hp
    have hsl : w2.sleeps = w.sleeps := by simpa using hp.2.1
    simp only [retryLoopAux]
    cases hint : w.interruptO 0 with
    | true => intro h; exact Or.inl (by simpa using h)
    | false =>
      simp only [Bool.false_eq_true, if_false, hpi]
      cases ok with
      | true => intro h; exact Or.inl (by rw [← hsl]; simpa using h)
      | false =>
        by_cases hrc : rc + 1 < MAX_RETRIES
        · simp only [hrc, if_true]
          intro h
          rcases ih (rc + 1) { w2 with sleeps := w2.sleeps ++ [RETRY_DELAY] } x h with hmem | heq
          · have hmem2 : x ∈ w2.sleeps ++ [RETRY_DELAY] := by simpa using hmem
            simp only [List.mem_append, List.mem_singleton] at hmem2
            rcases hmem2 with hmem2 | rfl
            · exact Or.inl (hsl ▸ hmem2)
            · exact Or.inr rfl
          · exact Or.inr heq
        · simp only [hrc, if_false]
          intro h
          have hm : (markProcessed w2 item.zuo_item_no).sleeps = w2.sleeps :=
            (markProcessed_frame w2 item.zuo_item_no).2.2.2.2.1
          rw [hm, hsl] at h
          exact Or.inl h

/--
If every inference call fails, no interrupt arrives, and the marking update
works, the retry loop spends all its remaining attempts, ends exhausted,
and force-marks the item `has_asset = true`, leaving everything else about
the store's rows for that item as the attempts left it (untouched).
-/
theorem retryLoopAux_exhaust (item : CombinedItem) :
    ∀ (k rc : Nat) (w : World),
      k + 1 + rc = MAX_RETRIES →
      (∀ n, w.predictO n = none) →
      (∀ n, w.interruptO n = false) →
      w.selFail (DbOp.markUpdate item.zuo_item_no) = false →
      ∃ w2, retryLoopAux item (k+1) rc w = (w2, .exhausted)
        ∧ w2.store = markHasAsset w.store item.zuo_item_no
        ∧ w2.selFail = w.selFail
        ∧ w2.processCalls = w.processCalls + (k + 1) := by
  intro k
  induction k with
  | zero =>
    intro rc w hinv hpred hintr hmark
    have hfail := process_item_predict_fail (w := { w with interruptO := fun n => w.interruptO (n+1) })
      item (fun n => hpred n)
    rcases hpi : process_item item { w with interruptO := fun n => w.interruptO (n+1) }
      with ⟨w2, ok⟩
    rw [hpi] at hfail
    obtain ⟨hok, hst, hsf, hio, hsl, hpc, hpr⟩ := hfail
    have hok' : ok = false := by simpa using hok
    subst hok'
    have hst' : w2.store = w.store := by simpa using hst
    have hsf' : w2.selFail = w.selFail := by simpa using hsf
    have hpc' : w2.processCalls = w.processCalls + 1 := by simpa using hpc
    simp only [retryLoopAux]
    rw [hintr 0]
    simp only [Bool.false_eq_true, if_false, hpi]
    have hceq : ¬ (rc + 1 < MAX_RETRIES) := by omega
    simp only [hceq, if_false]
    have hm : markProcessed w2 item.zuo_item_no
        = { w2 with store := markHasAsset w2.store item.zuo_item_no } := by
      unfold markProcessed
      rw [hsf', hmark]
      simp
    refine ⟨markProcessed w2 item.zuo_item_no, rfl, ?_, ?_, ?_⟩
    · rw [hm]
      show markHasAsset w2.store item.zuo_item_no = markHasAsset w.store item.zuo_item_no
      rw [hst']
    · rw [hm]
      exact hsf'
    · rw [hm]
      show w2.processCalls = w.processCalls + (0 + 1)
      omega
  | succ km ih =>
    intro rc w hinv hpred hintr hmark
    have hfail := process_item_predict_fail (w := { w with interruptO := fun n => w.interruptO (n+1) })
      item (fun n => hpred n)
    rcases hpi : process_item item { w with interruptO := fun n => w.interruptO (n+1) }
      with ⟨w2, ok⟩
    rw [hpi] at hfail
    obtain ⟨hok, hst, hsf, hio, hsl, hpc, hpr⟩ := hfail
    have hok' : ok = false := by simpa using hok
    subst hok'
    have hst' : w2.store = w.store := by simpa using hst
    have hsf' : w2.selFail = w.selFail := by simpa using hsf
    have hio' : w2.interruptO = fun n => w.interruptO (n+1) := by simpa using hio
    have hpc' : w2.processCalls = w.processCalls + 1 := by simpa using hpc
    have hpr' : ∀ n, w2.predictO n = none := by intro n; simpa using hpr n
    simp only [retryLoopAux]
    rw [hintr 0]
    simp only [Bool.false_eq_true, if_false, hpi]
    have hceq : rc + 1 < MAX_RETRIES := by omega
    simp only [hceq, if_true]
    have h3pred : ∀ n, ({ w2 with sleeps := w2.sleeps ++ [RETRY_DELAY] } : World).predictO n = none :=
      fun n => hpr' n
    have h3intr : ∀ n, ({ w2 with sleeps := w2.sleeps ++ [RETRY_DELAY] } : World).interruptO n = false := by
      intro n
      show w2.interruptO n = false
      rw [hio']
      exact hintr (n+1)
    have h3mark : ({ w2 with sleeps := w2.sleeps ++ [RETRY_DELAY] } : World).selFail
        (DbOp.markUpdate item.zuo_item_no) = false := by
      show w2.selFail (DbOp.markUpdate item.zuo_item_no) = false
      rw [hsf']
      exact hmark
    obtain ⟨w4, heq, hst4, hsf4, hpc4⟩ :=
      ih (rc+1) { w2 with sleeps := w2.sleeps ++ [RETRY_DELAY] } (by omega) h3pred h3intr h3mark
    refine ⟨w4, heq, ?_, ?_, ?_⟩
    · rw [hst4]
      show markHasAsset w2.store item.zuo_item_no = markHasAsset w.store item.zuo_item_no
      rw [hst']
    · rw [hsf4]
      exact hsf'
    · rw [hpc4]
      show w2.processCalls + (km + 1) = w.processCalls + (km + 1 + 1)
      omega

/-- What one generation attempt does to temporary storage, by oracle case:
a failed download creates nothing; a failed inference call leaves the
downloaded image behind; a successful generation deletes the image and
leaves the GLB (to be deleted by `process_item`'s cleanup). -/
theorem generate_tempFiles (item : CombinedItem) (w : World) :
    (w.downloadO 0 = none →
      (generate_3d_model item w).2 = none
      ∧ (generate_3d_model item w).1.tempFiles = w.tempFiles)
    ∧ (∀ p, w.downloadO 0 = some p → w.predictO 0 = none →
      (generate_3d_model item w).2 = none
      ∧ (generate_3d_model item w).1.tempFiles = p :: w.tempFiles)
    ∧ (∀ p g bts, w.downloadO 0 = some p → w.predictO 0 = some (g, bts) →
      (generate_3d_model item w).2 = some g
      ∧ (generate_3d_model item w).1.tempFiles = (g :: p :: w.tempFiles).erase p) := by
  refine ⟨?_, ?_, ?_⟩
  · intro hd
    unfold generate_3d_model download_image
    simp [hd]
  · intro p hd hp
    unfold generate_3d_model download_image
    simp [hd, hp]
  · intro p g bts hd hp
    unfold generate_3d_model download_image
    simp [hd, hp]

/-- Cleanup after a successful generation on an initially clean temp
directory leaves no file behind. -/
theorem cleanupGlb_of_generated (g p : String) (wx : World)
    (hx : wx.tempFiles = (g :: p :: ([] : List String)).erase p) :
    (cleanupGlb wx g).tempFiles = [] := by
  unfold cleanupGlb
  by_cases hgp : g = p
  · subst hgp
    have h1 : ((g :: g :: ([] : List String)).erase g) = [g] := List.erase_cons_head g [g]
    rw [h1] at hx
    simp [hx]
  · have h1 : ((g :: p :: ([] : List String)).erase p) = [g] := by
      rw [List.erase_cons_tail (by simpa using hgp)]
      simp
    rw [h1] at hx
    simp [hx]

/-! ### Object-store lemmas -/

theorem getObject_putObject (os : ObjectStore) (b k d ct : String) :
    getObject (putObject os b k d ct) b k = some ⟨b, k, d, ct⟩ := by
  unfold getObject putObject removeObject
  have hnil : ∀ l : List StoredObject,
      (l.filter (fun o => !objMatch b k o)).filter (objMatch b k) = [] := by
    intro l
    induction l with
    | nil => rfl
    | cons o t ih =>
      by_cases h : objMatch b k o = true
      · simp [h, ih]
      · have h' : objMatch b k o = false := by simpa using h
        simp [h', ih]
  simp only [List.filter_append, hnil]
  have hm : objMatch b k ⟨b, k, d, ct⟩ = true := by simp [objMatch]
  simp [hm]

theorem storageUpload_congr (wa wb : World) (b k d ct : String)
    (hb : wa.objStore.buckets = wb.objStore.buckets) (hu : wa.uploadO = wb.uploadO) :
    (storageUpload wa b k d ct).2 = (storageUpload wb b k d ct).2
    ∧ (storageUpload wa b k d ct).1.objStore.buckets
        = (storageUpload wb b k d ct).1.objStore.buckets
    ∧ (storageUpload wa b k d ct).1.uploadO = (storageUpload wb b k d ct).1.uploadO := by
  have hbe : bucketExists wa.objStore b = bucketExists wb.objStore b := by
    unfold bucketExists
    rw [hb]
  simp only [storageUpload]
  rw [hbe, hu]
  cases h1 : bucketExists wb.objStore b with
  | false => simp [h1, hb, hu]
  | true =>
    simp only [h1, Bool.true_eq_false, if_false]
    cases h2 : wb.uploadO 0 with
    | none => simp [h2, hb, hu, putObject, removeObject]
    | some msg => simp [h2, hb, hu]

theorem bucketExists_of_buckets_eq {osa osb : ObjectStore} (b : String)
    (h : osa.buckets = osb.buckets) : bucketExists osa b = bucketExists osb b := by
  unfold bucketExists
  rw [h]

theorem bucketExists_createBucket (os : ObjectStore) (b : String) (pub : Bool) :
    bucketExists (createBucket os b pub) b = true := by
  unfold bucketExists createBucket
  simp

theorem storageUpload_success {w : World} {b : String} (k d ct : String)
    (hbe : bucketExists w.objStore b = true) (hu : w.uploadO 0 = none) :
    storageUpload w b k d ct
      = ({ w with uploadAttempts := w.uploadAttempts + 1
                  uploadO := fun n => w.uploadO (n+1)
                  objStore := putObject w.objStore b k d ct }, none) := by
  simp only [storageUpload]
  have hbe' : bucketExists ({ w with uploadAttempts := w.uploadAttempts + 1 } : World).objStore b = true := hbe
  rw [hbe']
  simp [hu]

theorem storageUpload_bucketMissing {w : World} {b : String} (k d ct : String)
    (hbe : bucketExists w.objStore b = false) :
    storageUpload w b k d ct
      = ({ w with uploadAttempts := w.uploadAttempts + 1 }, some "Bucket not found") := by
  simp only [storageUpload]
  have hbe' : bucketExists ({ w with uploadAttempts := w.uploadAttempts + 1 } : World).objStore b = false := hbe
  rw [hbe']
  simp

theorem storageUpload_err {w : World} {b msg : String} (k d ct : String)
    (hbe : bucketExists w.objStore b = true) (hu : w.uploadO 0 = some msg) :
    storageUpload w b k d ct
      = ({ w with uploadAttempts := w.uploadAttempts + 1
                  uploadO := fun n => w.uploadO (n+1) }, some msg) := by
  simp only [storageUpload]
  have hbe' : bucketExists ({ w with uploadAttempts := w.uploadAttempts + 1 } : World).objStore b = true := hbe
  rw [hbe']
  simp [hu]

/-! ### Driver-loop helpers -/

/-- A limit of `0` is falsy, so the loop behaves as with no limit. -/
theorem runLoop_limit_zero (tm : Bool) :
    ∀ (fuel : Nat) (w : World) (s f p : Nat),
      runLoop (some 0) tm fuel w s f p = runLoop none tm fuel w s f p := by
  intro fuel
  induction fuel with
  | zero => intro w s f p; rfl
  | succ n ih =>
    intro w s f p
    simp only [runLoop]
    have h0 : limitReached (some 0) p = false := by simp [limitReached]
    have h1 : limitReached none p = false := rfl
    rw [h0, h1]
    simp only [Bool.false_eq_true, if_false]
    rcases hg : get_next_pending_item w with ⟨res, w1, e⟩
    cases res with
    | none => rfl
    | some item =>
      rcases hr : retryLoop item w1 with ⟨w2, ar⟩
      cases ar with
      | interrupted => simp only [hr]
      | success =>
        simp only [hr]
        exact ih (pauseIfNeeded tm w2) (s+1) f (p+1)
      | exhausted =>
        simp only [hr]
        exact ih (pauseIfNeeded tm w2) s (f+1) (p+1)

/-- In test mode the driver adds no inter-item pauses: any sleep recorded by
the loop is either pre-existing or a retry backoff. -/
theorem runLoop_sleeps_test (limit : Option Int) :
    ∀ (fuel : Nat) (w : World) (s f p x : Nat),
      x ∈ (runLoop limit true fuel w s f p).world.sleeps →
      x ∈ w.sleeps ∨ x = RETRY_DELAY := by
  intro fuel
  induction fuel with
  | zero => intro w s f p x h; exact Or.inl (by simpa [runLoop] using h)
  | succ n ih =>
    intro w s f p x
    simp only [runLoop]
    cases hlim : limitReached limit p with
    | true =>
      simp only [hlim, if_true]
      intro h
      exact Or.inl (by simpa using h)
    | false =>
      simp only [hlim, Bool.false_eq_true, if_false]
      obtain ⟨st1, hw1⟩ := getNextAux_world (pendingCount w.store + 1) w
      have hw1' : (get_next_pending_item w).2.1 = { w with store := st1 } := hw1
      rcases hg : get_next_pending_item w with ⟨res, w1, e⟩
      have hgw : (get_next_pending_item w).2.1 = w1 := by rw [hg]
      have hw1s : w1.sleeps = w.sleeps := by
        rw [← hgw, hw1']
      cases res with
      | none =>
        simp only [hg]
        intro h
        exact Or.inl (hw1s ▸ (by simpa using h))
      | some item =>
        simp only [hg]
        rcases hr : retryLoop item w1 with ⟨w2, ar⟩
        have hrw : retryLoopAux item MAX_RETRIES 0 w1 = (w2, ar) := hr
        have hry : ∀ y, y ∈ w2.sleeps → y ∈ w1.sleeps ∨ y = RETRY_DELAY := by
          intro y hy
          have := retryLoopAux_sleeps item MAX_RETRIES 0 w1 y
          rw [hrw] at this
          exact this hy
        cases ar with
        | interrupted =>
          intro h
          rcases hry x (by simpa using h) with hm | he
          · exact Or.inl (hw1s ▸ hm)
          · exact Or.inr he
        | success =>
          intro h
          rcases ih (pauseIfNeeded true w2) (s+1) f (p+1) x h with hm | he
          · have hm2 : x ∈ w2.sleeps := by simpa [pauseIfNeeded] using hm
            rcases hry x hm2 with hm3 | he3
            · exact Or.inl (hw1s ▸ hm3)
            · exact Or.inr he3
          · exact Or.inr he
        | exhausted =>
          intro h
          rcases ih (pauseIfNeeded true w2) s (f+1) (p+1) x h with hm | he
          · have hm2 : x ∈ w2.sleeps := by simpa [pauseIfNeeded] using hm
            rcases hry x hm2 with hm3 | he3
            · exact Or.inl (hw1s ▸ hm3)
            · exact Or.inr he3
          · exact Or.inr he

/-! ### Claims -/

/-- Claim C10: throughout any invocation of the driver,
`success_count + failed_count ≤ processed_count`; and when the loop
terminates normally (not by interruption), every processed item has been
counted exactly once, so the sum equals `processed_count`. -/
theorem claim_C10 :
    ∀ (limit : Option Int) (tm : Bool) (fuel : Nat) (w : World) (s f p : Nat),
      s + f ≤ p →
      ((runLoop limit tm fuel w s f p).success + (runLoop limit tm fuel w s f p).failed
          ≤ (runLoop limit tm fuel w s f p).processed)
      ∧ (s + f = p → (runLoop limit tm fuel w s f p).status = RunStatus.completed →
          (runLoop limit tm fuel w s f p).success + (runLoop limit tm fuel w s f p).failed
            = (runLoop limit tm fuel w s f p).processed) := by
  intro limit tm fuel
  induction fuel with
  | zero =>
    intro w s f p hle
    constructor
    · simpa [runLoop] using hle
    · intro _ hst
      simp [runLoop] at hst
  | succ n ih =>
    intro w s f p hle
    simp only [runLoop]
    cases hlim : limitReached limit p with
    | true =>
      simp only [hlim, if_true]
      exact ⟨hle, fun he _ => he⟩
    | false =>
      simp only [hlim, Bool.false_eq_true, if_false]
      rcases hg : get_next_pending_item w with ⟨res, w1, e⟩
      cases res with
      | none => exact ⟨hle, fun he _ => he⟩
      | some item =>
        rcases hr : retryLoop item w1 with ⟨w2, ar⟩
        cases ar with
        | interrupted =>
          simp only [hr]
          constructor
          · show s + f ≤ p + 1
            omega
          · intro _ hst
            simp at hst
        | success =>
          simp only [hr]
          exact ⟨(ih (pauseIfNeeded tm w2) (s+1) f (p+1) (by omega)).1,
            fun he hst => (ih (pauseIfNeeded tm w2) (s+1) f (p+1) (by omega)).2 (by omega) hst⟩
        | exhausted =>
          simp only [hr]
          exact ⟨(ih (pauseIfNeeded tm w2) s (f+1) (p+1) (by omega)).1,
            fun he hst => (ih (pauseIfNeeded tm w2) s (f+1) (p+1) (by omega)).2 (by omega) hst⟩

/-- Claim C10 witness at a completed concrete run. -/
theorem claim_C10_witness :
    0 + 0 ≤ 0
    ∧ ((runLoop none false 3 e2eWorld 0 0 0).success + (runLoop none false 3 e2eWorld 0 0 0).failed
        ≤ (runLoop none false 3 e2eWorld 0 0 0).processed)
    ∧ ((runLoop none false 3 e2eWorld 0 0 0).success + (runLoop none false 3 e2eWorld 0 0 0).failed
        = (runLoop none false 3 e2eWorld 0 0 0).processed) :=
  ⟨Nat.le_refl 0,
   (claim_C10 none false 3 e2eWorld 0 0 0 (Nat.le_refl 0)).1,
   (claim_C10 none false 3 e2eWorld 0 0 0 (Nat.le_refl 0)).2 rfl (by decide)⟩

/-- Claim C3: for every selected item the per-item processing attempt is
invoked at most `MAX_RETRIES` times by the retry loop (hence the generation
endpoint is called at most `MAX_RETRIES` times for the item); at any loop
state — any retry count, any remaining fuel, any world — whose current
attempt succeeds, the loop returns that attempt's world with `.success`
immediately, invoking no further attempt; and concretely, a run whose
attempt 1 fails and attempt 2 succeeds performs exactly 2 attempts even
though a third was still allowed. -/
theorem claim_C3 (item : CombinedItem) (w : World) :
    ((retryLoop item w).1.processCalls ≤ w.processCalls + MAX_RETRIES
      ∧ (retryLoop item w).1.inferenceCalls ≤ w.inferenceCalls + MAX_RETRIES)
    ∧ (∀ (fuelLeft rc : Nat) (wx : World), wx.interruptO 0 = false →
        (process_item item { wx with interruptO := fun n => wx.interruptO (n+1) }).2 = true →
        retryLoopAux item (fuelLeft+1) rc wx
          = ((process_item item { wx with interruptO := fun n => wx.interruptO (n+1) }).1,
             AttemptResult.success))
    ∧ ((retryLoop a100Item secondTryWorld).2 = AttemptResult.success
      ∧ (retryLoop a100Item secondTryWorld).1.processCalls
          = secondTryWorld.processCalls + 2) := by
  refine ⟨retryLoopAux_calls_le item MAX_RETRIES 0 w, ?_, by decide⟩
  intro fuelLeft rc wx hint hsucc
  rcases hpi : process_item item { wx with interruptO := fun n => wx.interruptO (n+1) }
    with ⟨w2, ok⟩
  rw [hpi] at hsucc
  have hok : ok = true := by simpa using hsucc
  subst hok
  simp only [retryLoopAux]
  rw [hint]
  simp only [Bool.false_eq_true, if_false, hpi]

/-- Claim C3 witness: at the loop state of attempt 2 (retry count 1, one
retry left) a succeeding attempt ends the loop at once. -/
theorem claim_C3_witness :
    retryLoopAux a100Item 2 1 e2eWorld
      = ((process_item a100Item
            { e2eWorld with interruptO := fun n => e2eWorld.interruptO (n+1) }).1,
         AttemptResult.success) :=
  (claim_C3 a100Item e2eWorld).2.1 1 1 e2eWorld rfl (by decide)

/-- Claim C9: a processing-count limit of `0` is falsy, so the limit check
never fires and the run behaves identically to a run with no limit. -/
theorem claim_C9 :
    (∀ (tm : Bool) (fuel : Nat) (w : World) (s f p : Nat),
      runLoop (some 0) tm fuel w s f p = runLoop none tm fuel w s f p)
    ∧ ∀ (fuel : Nat) (w : World), run (some 0) false fuel w = run none false fuel w := by
  constructor
  · exact fun tm => runLoop_limit_zero tm
  · intro fuel w
    exact runLoop_limit_zero false fuel w 0 0 0

/-- Claim C8: any raised selector query makes `get_next_pending_item`
return `none` instead of propagating, and the driver loop then ends
gracefully as if no items remained. -/
theorem claim_C8 (w : World) (limit : Option Int) (tm : Bool) (fuel : Nat) :
    ((get_next_pending_item w).2.2 = true → (get_next_pending_item w).1 = none)
    ∧ ((get_next_pending_item w).1 = none → limitReached limit 0 = false →
        runLoop limit tm (fuel+1) w 0 0 0
          = ⟨(get_next_pending_item w).2.1, 0, 0, 0, RunStatus.completed⟩) := by
  constructor
  · exact getNextAux_err (pendingCount w.store + 1) w
  · intro hres hlim
    simp only [runLoop, hlim, Bool.false_eq_true, if_false]
    rcases hg : get_next_pending_item w with ⟨res, w1, e⟩
    rw [hg] at hres
    have hres' : res = none := by simpa using hres
    subst hres'
    rfl

/-- Claim C8 witness: a raising pending scan yields no item and a graceful
empty run. -/
theorem claim_C8_witness :
    (get_next_pending_item selErrWorld).1 = none
    ∧ runLoop none false 1 selErrWorld 0 0 0
        = ⟨(get_next_pending_item selErrWorld).2.1, 0, 0, 0, RunStatus.completed⟩ :=
  ⟨(claim_C8 selErrWorld none false 0).1 (by decide),
   (claim_C8 selErrWorld none false 0).2 ((claim_C8 selErrWorld none false 0).1 (by decide)) rfl⟩

/-- Claim C1: for an item whose every processing attempt fails (here: every
inference call raises), with no interruption and a working marking update,
the retry loop makes exactly `MAX_RETRIES` attempts, ends exhausted,
force-marks every row of the item `has_asset = true` while leaving the
asset URL unset, the driver counts exactly one more failure, and no
subsequent selector call ever returns the item. -/
theorem claim_C1 (w : World) (limit : Option Int) (tm : Bool) (fuel s f p : Nat)
    (item : CombinedItem) (w1 : World) (e : Bool)
    (hlim : limitReached limit p = false)
    (hsel : get_next_pending_item w = (some item, w1, e))
    (hpred : ∀ n, w1.predictO n = none)
    (hintr : ∀ n, w1.interruptO n = false)
    (hmark : w1.selFail (DbOp.markUpdate item.zuo_item_no) = false)
    (hurl : ∀ r ∈ w1.store.embedding, r.itemNo = item.zuo_item_no → r.assetUrl = none) :
    ∃ w2, retryLoop item w1 = (w2, AttemptResult.exhausted)
      ∧ allMarked w2.store item.zuo_item_no
      ∧ (∀ r ∈ w2.store.embedding, r.itemNo = item.zuo_item_no → r.assetUrl = none)
      ∧ w2.processCalls = w1.processCalls + MAX_RETRIES
      ∧ runLoop limit tm (fuel+1) w s f p
          = runLoop limit tm fuel (pauseIfNeeded tm w2) s (f+1) (p+1)
      ∧ (∀ w3, allMarked w3.store item.zuo_item_no →
          allMarked (get_next_pending_item w3).2.1.store item.zuo_item_no
          ∧ ∀ c, (get_next_pending_item w3).1 = some c → c.zuo_item_no ≠ item.zuo_item_no) := by
  obtain ⟨w2, hret, hst, hsf, hpc⟩ :=
    retryLoopAux_exhaust item (MAX_RETRIES - 1) 0 w1 (by decide) hpred hintr hmark
  have hret' : retryLoop item w1 = (w2, AttemptResult.exhausted) := hret
  refine ⟨w2, hret', ?_, ?_, ?_, ?_, ?_⟩
  · rw [hst]
    exact allMarked_markHasAsset_self w1.store item.zuo_item_no
  · rw [hst]
    exact markHasAsset_assetUrl item.zuo_item_no hurl
  · rw [hpc]
    have h3 : MAX_RETRIES - 1 + 1 = MAX_RETRIES := by decide
    rw [h3]
  · simp only [runLoop, hlim, Bool.false_eq_true, if_false, hsel, hret']
  · intro w3 hall
    exact getNextAux_allMarked (pendingCount w3.store + 1) w3 item.zuo_item_no hall

/-- Claim C1 witness: the concrete exhaustion scenario. -/
theorem claim_C1_witness :
    ∃ w2, retryLoop a100Item predictFailWorld = (w2, AttemptResult.exhausted)
      ∧ allMarked w2.store a100Item.zuo_item_no
      ∧ (∀ r ∈ w2.store.embedding, r.itemNo = a100Item.zuo_item_no → r.assetUrl = none)
      ∧ w2.processCalls = predictFailWorld.processCalls + MAX_RETRIES
      ∧ runLoop none false 1 predictFailWorld 0 0 0
          = runLoop none false 0 (pauseIfNeeded false w2) 0 1 1
      ∧ (∀ w3, allMarked w3.store a100Item.zuo_item_no →
          allMarked (get_next_pending_item w3).2.1.store a100Item.zuo_item_no
          ∧ ∀ c, (get_next_pending_item w3).1 = some c → c.zuo_item_no ≠ a100Item.zuo_item_no) :=
  claim_C1 predictFailWorld none false 0 0 0 0 a100Item predictFailWorld false rfl rfl
    (fun _ => rfl) (fun _ => rfl) rfl (by decide)

/-- Claim C4: a fetched record that is excluded (no catalog row, `Outdoor`
category, `DISC` status, or missing primary image) gets all its rows marked
`has_asset = true`; the call then continues exactly as a fresh selection on
the marked store, and neither this call nor any call on a marked store ever
returns the record. -/
theorem claim_C4 (w : World) (rec : EmbeddingRecord)
    (hok : ∀ op, w.selFail op = false)
    (hfind : findPending w.store.embedding = some rec)
    (hexc : isExcluded w.store rec.itemNo = true) :
    allMarked (get_next_pending_item w).2.1.store rec.itemNo
    ∧ (∀ c, (get_next_pending_item w).1 = some c → c.zuo_item_no ≠ rec.itemNo)
    ∧ get_next_pending_item w
        = get_next_pending_item { w with store := markHasAsset w.store rec.itemNo }
    ∧ (∀ w2, allMarked w2.store rec.itemNo →
        allMarked (get_next_pending_item w2).2.1.store rec.itemNo
        ∧ ∀ c, (get_next_pending_item w2).1 = some c → c.zuo_item_no ≠ rec.itemNo) := by
  have hs : selStep w = SelDecision.exclude rec.itemNo := by
    unfold selStep
    simp only [hok, Bool.false_eq_true, if_false, hfind]
    unfold isExcluded at hexc
    cases hcat : catalogFor w.store rec.itemNo with
    | none => simp [hcat]
    | some cat =>
      rw [hcat] at hexc
      by_cases h1 : cat.mainCategory = some "Outdoor"
      · simp [hcat, h1]
      · by_cases h2 : cat.itemStatus = some "DISC"
        · simp [hcat, h1, h2]
        · cases him : imagesFor w.store rec.itemNo with
          | none => simp [hcat, h1, h2, him]
          | some img =>
            rw [him] at hexc
            simp only [h1, if_false, h2] at hexc
            have h3 : optTruthy img.image1 = false := by simpa using hexc
            simp [hcat, h1, h2, him, h3]
  have h3 := get_next_after_exclude hs
  have hAm : allMarked ({ w with store := markHasAsset w.store rec.itemNo } : World).store rec.itemNo :=
    allMarked_markHasAsset_self w.store rec.itemNo
  have h4 := getNextAux_allMarked
    (pendingCount ({ w with store := markHasAsset w.store rec.itemNo } : World).store + 1)
    { w with store := markHasAsset w.store rec.itemNo } rec.itemNo hAm
  refine ⟨?_, ?_, h3, ?_⟩
  · rw [h3]
    exact h4.1
  · rw [h3]
    exact h4.2
  · intro w2 hall
    exact getNextAux_allMarked (pendingCount w2.store + 1) w2 rec.itemNo hall

/-- Claim C4 witness: the Outdoor record `B1` is marked and skipped. -/
theorem claim_C4_witness :
    allMarked (get_next_pending_item outdoorWorld).2.1.store "B1"
    ∧ ∀ c, (get_next_pending_item outdoorWorld).1 = some c → c.zuo_item_no ≠ "B1" := by
  have h := claim_C4 outdoorWorld ⟨"B1", false, none, none⟩ (fun _ => rfl) rfl (by decide)
  exact ⟨h.1, h.2.1⟩

/-- Claim C2 counterexample: in an attempt whose download succeeds and whose
inference call fails, the downloaded image file is still in temporary
storage after the attempt completes, refuting "no downloaded image … file
persists after the attempt completes" for every attempt. -/
theorem claim_C2_counterexample :
    predictFailWorld.tempFiles = []
    ∧ (process_item a100Item predictFailWorld).2 = false
    ∧ (process_item a100Item predictFailWorld).1.tempFiles = ["/tmp/a100.jpg"] := by
  decide

/-- Claim C2 (amended): after any attempt started with clean temporary
storage, the generated asset file never persists; temporary storage is
empty again unless the inference call failed after a successful download,
in which case exactly the downloaded image file persists. -/
theorem claim_C2 (item : CombinedItem) (w : World) (hclean : w.tempFiles = []) :
    (process_item item w).1.tempFiles = []
    ∨ ∃ p, w.downloadO 0 = some p ∧ w.predictO 0 = none
        ∧ (process_item item w).1.tempFiles = [p] := by
  have hgen := generate_tempFiles item { w with processCalls := w.processCalls + 1 }
  rcases hg : generate_3d_model item { w with processCalls := w.processCalls + 1 } with ⟨w1, gr⟩
  rw [hg] at hgen
  obtain ⟨gnone, gfail, gok⟩ := hgen
  cases hd : w.downloadO 0 with
  | none =>
    have h1 := gnone hd
    have hgr : gr = none := by simpa using h1.1
    subst hgr
    left
    have htf : w1.tempFiles = w.tempFiles := by simpa using h1.2
    simp only [process_item, hg]
    rw [htf, hclean]
  | some p =>
    cases hp : w.predictO 0 with
    | none =>
      have h1 := gfail p hd hp
      have hgr : gr = none := by simpa using h1.1
      subst hgr
      right
      refine ⟨p, rfl, rfl, ?_⟩
      have htf : w1.tempFiles = p :: w.tempFiles := by simpa using h1.2
      simp only [process_item, hg]
      rw [htf, hclean]
    | some pr =>
      left
      rcases pr with ⟨g, bts⟩
      have h1 := gok p g bts hd hp
      have hgr : gr = some g := by simpa using h1.1
      subst hgr
      have htf : w1.tempFiles = (g :: p :: ([] : List String)).erase p := by
        have h2 : w1.tempFiles = (g :: p :: w.tempFiles).erase p := by simpa using h1.2
        rw [hclean] at h2
        exact h2
      have hu := upload_frame item g w1
      rcases hup : upload_to_supabase item g w1 with ⟨w2, r⟩
      rw [hup] at hu
      have htf2 : w2.tempFiles = (g :: p :: ([] : List String)).erase p := by
        have h3 : w2.tempFiles = w1.tempFiles := by simpa using hu.2.2.2.2.2.2.2
        rw [h3, htf]
      cases r with
      | error msg =>
        simp only [process_item, hg, hup]
        exact cleanupGlb_of_generated g p w2 htf2
      | ok assetUrl =>
        have hud := update_database_frame item assetUrl w2
        rcases hupd : update_database item assetUrl w2 with ⟨w3, ok⟩
        rw [hupd] at hud
        have htf3 : w3.tempFiles = (g :: p :: ([] : List String)).erase p := by
          have h4 : w3.tempFiles = w2.tempFiles := by simpa using hud.2.2.2.2.2.2
          rw [h4, htf2]
        simp only [process_item, hg, hup, hupd]
        exact cleanupGlb_of_generated g p w3 htf3

/-- Claim C6: publishing uses the deterministic key `{item_id}.glb`; a
working upload stores the bytes under that key and returns its public URL
whatever the preceding delete did; if the upload fails because the bucket
is missing, the bucket is created public and the upload is retried exactly
once (two upload attempts in total); any other upload error — including a
failure of the retried upload — propagates; and the delete outcome never
influences the returned result. -/
theorem claim_C6 (item : CombinedItem) (glbPath : String) (w : World) (glbData : String)
    (hlook : w.fileData.lookup glbPath = some glbData) :
    (bucketExists w.objStore SUPABASE_BUCKET = true → w.uploadO 0 = none →
      (upload_to_supabase item glbPath w).2
          = Except.ok (getPublicUrl SUPABASE_BUCKET (item.zuo_item_no ++ ".glb"))
      ∧ getObject (upload_to_supabase item glbPath w).1.objStore SUPABASE_BUCKET
            (item.zuo_item_no ++ ".glb")
          = some ⟨SUPABASE_BUCKET, item.zuo_item_no ++ ".glb", glbData, "model/gltf-binary"⟩
      ∧ (upload_to_supabase item glbPath w).1.uploadAttempts = w.uploadAttempts + 1)
    ∧ (bucketExists w.objStore SUPABASE_BUCKET = false → w.uploadO 0 = none →
      (upload_to_supabase item glbPath w).2
          = Except.ok (getPublicUrl SUPABASE_BUCKET (item.zuo_item_no ++ ".glb"))
      ∧ Bucket.mk SUPABASE_BUCKET true ∈ (upload_to_supabase item glbPath w).1.objStore.buckets
      ∧ getObject (upload_to_supabase item glbPath w).1.objStore SUPABASE_BUCKET
            (item.zuo_item_no ++ ".glb")
          = some ⟨SUPABASE_BUCKET, item.zuo_item_no ++ ".glb", glbData, "model/gltf-binary"⟩
      ∧ (upload_to_supabase item glbPath w).1.uploadAttempts = w.uploadAttempts + 2)
    ∧ (∀ msg, bucketExists w.objStore SUPABASE_BUCKET = true → w.uploadO 0 = some msg →
      strContains msg "Bucket not found" = false →
      (upload_to_supabase item glbPath w).2 = Except.error msg)
    ∧ (∀ msg, bucketExists w.objStore SUPABASE_BUCKET = false → w.uploadO 0 = some msg →
      (upload_to_supabase item glbPath w).2 = Except.error msg
      ∧ (upload_to_supabase item glbPath w).1.uploadAttempts = w.uploadAttempts + 2)
    ∧ (∀ ro, (upload_to_supabase item glbPath { w with removeO := ro }).2
        = (upload_to_supabase item glbPath w).2) := by
  have hR := storageRemove_frame w SUPABASE_BUCKET (item.zuo_item_no ++ ".glb")
  have hRb : (storageRemove w SUPABASE_BUCKET (item.zuo_item_no ++ ".glb")).1.objStore.buckets
      = w.objStore.buckets := hR.2.2.2.2.2.2.2.2.1
  have hRu : (storageRemove w SUPABASE_BUCKET (item.zuo_item_no ++ ".glb")).1.uploadO
      = w.uploadO := hR.2.2.2.2.2.2.2.2.2.1
  have hRa : (storageRemove w SUPABASE_BUCKET (item.zuo_item_no ++ ".glb")).1.uploadAttempts
      = w.uploadAttempts := hR.2.2.2.2.2.2.2.2.2.2.2
  refine ⟨?_, ?_, ?_, ?_, ?_⟩
  · intro hbe hu0
    have hbe1 : bucketExists (storageRemove w SUPABASE_BUCKET (item.zuo_item_no ++ ".glb")).1.objStore
        SUPABASE_BUCKET = true := by
      rw [bucketExists_of_buckets_eq SUPABASE_BUCKET hRb]
      exact hbe
    have hu1 : (storageRemove w SUPABASE_BUCKET (item.zuo_item_no ++ ".glb")).1.uploadO 0 = none := by
      rw [hRu]
      exact hu0
    simp only [upload_to_supabase, hlook,
      storageUpload_success (item.zuo_item_no ++ ".glb") glbData "model/gltf-binary" hbe1 hu1]
    refine ⟨by trivial, ?_, ?_⟩
    · exact getObject_putObject _ SUPABASE_BUCKET (item.zuo_item_no ++ ".glb") glbData "model/gltf-binary"
    · show (storageRemove w SUPABASE_BUCKET (item.zuo_item_no ++ ".glb")).1.uploadAttempts + 1
          = w.uploadAttempts + 1
      rw [hRa]
  · intro hbe hu0
    have hbe1 : bucketExists (storageRemove w SUPABASE_BUCKET (item.zuo_item_no ++ ".glb")).1.objStore
        SUPABASE_BUCKET = false := by
      rw [bucketExists_of_buckets_eq SUPABASE_BUCKET hRb]
      exact hbe
    have hstr : strContains "Bucket not found" "Bucket not found" = true := by decide
    simp only [upload_to_supabase, hlook,
      storageUpload_bucketMissing (item.zuo_item_no ++ ".glb") glbData "model/gltf-binary" hbe1,
      hstr, if_true]
    have hu3 : (storageRemove w SUPABASE_BUCKET (item.zuo_item_no ++ ".glb")).1.uploadO 0 = none := by
      rw [hRu]
      exact hu0
    rw [storageUpload_success
      (w := { (storageRemove w SUPABASE_BUCKET (item.zuo_item_no ++ ".glb")).1 with
                objStore := createBucket
                  (storageRemove w SUPABASE_BUCKET (item.zuo_item_no ++ ".glb")).1.objStore
                  SUPABASE_BUCKET true
                uploadAttempts :=
                  (storageRemove w SUPABASE_BUCKET (item.zuo_item_no ++ ".glb")).1.uploadAttempts + 1 })
      (item.zuo_item_no ++ ".glb") glbData "model/gltf-binary"
      (bucketExists_createBucket _ SUPABASE_BUCKET true) hu3]
    refine ⟨by trivial, ?_, ?_, ?_⟩
    · show Bucket.mk SUPABASE_BUCKET true ∈
        (putObject (createBucket (storageRemove w SUPABASE_BUCKET (item.zuo_item_no ++ ".glb")).1.objStore
            SUPABASE_BUCKET true) SUPABASE_BUCKET
          (item.zuo_item_no ++ ".glb") glbData "model/gltf-binary").buckets
      simp [putObject, createBucket, removeObject]
    · exact getObject_putObject _ SUPABASE_BUCKET (item.zuo_item_no ++ ".glb") glbData "model/gltf-binary"
    · show (storageRemove w SUPABASE_BUCKET (item.zuo_item_no ++ ".glb")).1.uploadAttempts + 1 + 1
          = w.uploadAttempts + 2
      rw [hRa]
  · intro msg hbe hu0 hstr
    have hbe1 : bucketExists (storageRemove w SUPABASE_BUCKET (item.zuo_item_no ++ ".glb")).1.objStore
        SUPABASE_BUCKET = true := by
      rw [bucketExists_of_buckets_eq SUPABASE_BUCKET hRb]
      exact hbe
    have hu1 : (storageRemove w SUPABASE_BUCKET (item.zuo_item_no ++ ".glb")).1.uploadO 0 = some msg := by
      rw [hRu]
      exact hu0
    simp only [upload_to_supabase, hlook,
      storageUpload_err (item.zuo_item_no ++ ".glb") glbData "model/gltf-binary" hbe1 hu1,
      hstr, Bool.false_eq_true, if_false]
  · intro msg hbe hu0
    have hbe1 : bucketExists (storageRemove w SUPABASE_BUCKET (item.zuo_item_no ++ ".glb")).1.objStore
        SUPABASE_BUCKET = false := by
      rw [bucketExists_of_buckets_eq SUPABASE_BUCKET hRb]
      exact hbe
    have hstr : strContains "Bucket not found" "Bucket not found" = true := by decide
    simp only [upload_to_supabase, hlook,
      storageUpload_bucketMissing (item.zuo_item_no ++ ".glb") glbData "model/gltf-binary" hbe1,
      hstr, if_true]
    have hu3 : (storageRemove w SUPABASE_BUCKET (item.zuo_item_no ++ ".glb")).1.uploadO 0 = some msg := by
      rw [hRu]
      exact hu0
    rw [storageUpload_err
      (w := { (storageRemove w SUPABASE_BUCKET (item.zuo_item_no ++ ".glb")).1 with
                objStore := createBucket
                  (storageRemove w SUPABASE_BUCKET (item.zuo_item_no ++ ".glb")).1.objStore
                  SUPABASE_BUCKET true
                uploadAttempts :=
                  (storageRemove w SUPABASE_BUCKET (item.zuo_item_no ++ ".glb")).1.uploadAttempts + 1 })
      (item.zuo_item_no ++ ".glb") glbData "model/gltf-binary"
      (bucketExists_createBucket _ SUPABASE_BUCKET true) hu3]
    refine ⟨by trivial, ?_⟩
    show (storageRemove w SUPABASE_BUCKET (item.zuo_item_no ++ ".glb")).1.uploadAttempts + 1 + 1
        = w.uploadAttempts + 2
    rw [hRa]
  · intro ro
    have hlook' : ({ w with removeO := ro } : World).fileData.lookup glbPath = some glbData := hlook
    have hRA := storageRemove_frame { w with removeO := ro } SUPABASE_BUCKET (item.zuo_item_no ++ ".glb")
    have hRAb : (storageRemove { w with removeO := ro } SUPABASE_BUCKET
        (item.zuo_item_no ++ ".glb")).1.objStore.buckets = w.objStore.buckets :=
      hRA.2.2.2.2.2.2.2.2.1
    have hRAu : (storageRemove { w with removeO := ro } SUPABASE_BUCKET
        (item.zuo_item_no ++ ".glb")).1.uploadO = w.uploadO :=
      hRA.2.2.2.2.2.2.2.2.2.1
    simp only [upload_to_supabase, hlook, hlook']
    have hcong := storageUpload_congr
      (storageRemove { w with removeO := ro } SUPABASE_BUCKET (item.zuo_item_no ++ ".glb")).1
      (storageRemove w SUPABASE_BUCKET (item.zuo_item_no ++ ".glb")).1
      SUPABASE_BUCKET (item.zuo_item_no ++ ".glb") glbData "model/gltf-binary"
      (hRAb.trans hRb.symm) (hRAu.trans hRu.symm)
    rcases hA : storageUpload
        (storageRemove { w with removeO := ro } SUPABASE_BUCKET (item.zuo_item_no ++ ".glb")).1
        SUPABASE_BUCKET (item.zuo_item_no ++ ".glb") glbData "model/gltf-binary" with ⟨wa2, rA⟩
    rcases hB : storageUpload
        (storageRemove w SUPABASE_BUCKET (item.zuo_item_no ++ ".glb")).1
        SUPABASE_BUCKET (item.zuo_item_no ++ ".glb") glbData "model/gltf-binary" with ⟨wb2, rB⟩
    rw [hA, hB] at hcong
    have hrr : rA = rB := by simpa using hcong.1
    have hbk : wa2.objStore.buckets = wb2.objStore.buckets := by simpa using hcong.2.1
    have hupo : wa2.uploadO = wb2.uploadO := by simpa using hcong.2.2
    subst hrr
    cases rA with
    | none => rfl
    | some msg =>
      by_cases hstr : strContains msg "Bucket not found" = true
      · simp only [hstr, if_true]
        have hcong2 := storageUpload_congr
          { wa2 with objStore := createBucket wa2.objStore SUPABASE_BUCKET true }
          { wb2 with objStore := createBucket wb2.objStore SUPABASE_BUCKET true }
          SUPABASE_BUCKET (item.zuo_item_no ++ ".glb") glbData "model/gltf-binary"
          (by simp [createBucket, hbk]) hupo
        rcases hA2 : storageUpload
            { wa2 with objStore := createBucket wa2.objStore SUPABASE_BUCKET true }
            SUPABASE_BUCKET (item.zuo_item_no ++ ".glb") glbData "model/gltf-binary" with ⟨wa3, rA2⟩
        rcases hB2 : storageUpload
            { wb2 with objStore := createBucket wb2.objStore SUPABASE_BUCKET true }
            SUPABASE_BUCKET (item.zuo_item_no ++ ".glb") glbData "model/gltf-binary" with ⟨wb3, rB2⟩
        rw [hA2, hB2] at hcong2
        have hrr2 : rA2 = rB2 := by simpa using hcong2.1
        subst hrr2
        cases rA2 with
        | none => rfl
        | some m2 => rfl
      · have hstr' : strContains msg "Bucket not found" = false := by simpa using hstr
        simp only [hstr', Bool.false_eq_true, if_false]

/-- Claim C6 witness: the working-bucket scenario at concrete inputs. -/
theorem claim_C6_witness :
    (upload_to_supabase a100Item "/tmp/a100.glb" uploadReadyWorld).2
        = Except.ok (getPublicUrl SUPABASE_BUCKET (a100Item.zuo_item_no ++ ".glb"))
    ∧ getObject (upload_to_supabase a100Item "/tmp/a100.glb" uploadReadyWorld).1.objStore
          SUPABASE_BUCKET (a100Item.zuo_item_no ++ ".glb")
        = some ⟨SUPABASE_BUCKET, a100Item.zuo_item_no ++ ".glb", "B", "model/gltf-binary"⟩
    ∧ (upload_to_supabase a100Item "/tmp/a100.glb" uploadReadyWorld).1.uploadAttempts
        = uploadReadyWorld.uploadAttempts + 1 :=
  (claim_C6 a100Item "/tmp/a100.glb" uploadReadyWorld "B" rfl).1 rfl rfl

/-- Claim C2 witness: a successful attempt leaves temporary storage clean. -/
theorem claim_C2_witness :
    e2eWorld.tempFiles = []
    ∧ ((process_item a100Item e2eWorld).1.tempFiles = []
      ∨ ∃ p, e2eWorld.downloadO 0 = some p ∧ e2eWorld.predictO 0 = none
          ∧ (process_item a100Item e2eWorld).1.tempFiles = [p]) :=
  ⟨rfl, claim_C2 a100Item e2eWorld rfl⟩

/-- Claim C5: in the end-to-end scenario — one eligible record `A100` with a
primary image, inference returning bytes `B` — the run downloads the image,
calls the inference endpoint exactly once, uploads `A100.glb` containing
`B` to the configured bucket, writes the public URL into both asset-URL
fields with `has_asset = true`, and finishes with success 1, failed 0. -/
theorem claim_C5 :
    (run none false 3 e2eWorld).success = 1
    ∧ (run none false 3 e2eWorld).failed = 0
    ∧ (run none false 3 e2eWorld).processed = 1
    ∧ (run none false 3 e2eWorld).status = RunStatus.completed
    ∧ (run none false 3 e2eWorld).world.downloadedUrls = ["http://x/img.jpg"]
    ∧ (run none false 3 e2eWorld).world.inferenceCalls = 1
    ∧ getObject (run none false 3 e2eWorld).world.objStore SUPABASE_BUCKET "A100.glb"
        = some ⟨SUPABASE_BUCKET, "A100.glb", "B", "model/gltf-binary"⟩
    ∧ (run none false 3 e2eWorld).world.store.embedding
        = [⟨"A100", true, some (getPublicUrl SUPABASE_BUCKET "A100.glb"),
            some (getPublicUrl SUPABASE_BUCKET "A100.glb")⟩] := by
  decide

/-- Claim C7: with five eligible records and a limit of 2 the run processes
exactly two items and completes without error; and in test mode the run is
the run with the limit forced to 1, and the driver adds no inter-item
pause (any sleep it records is a pre-existing one or a retry backoff). -/
theorem claim_C7 :
    ((run (some 2) false 9 fiveWorld).processed = 2
      ∧ (run (some 2) false 9 fiveWorld).success = 2
      ∧ (run (some 2) false 9 fiveWorld).failed = 0
      ∧ (run (some 2) false 9 fiveWorld).status = RunStatus.completed)
    ∧ (∀ (limit : Option Int) (fuel : Nat) (w : World),
        run limit true fuel w = runLoop (some 1) true fuel w 0 0 0)
    ∧ (∀ (limit : Option Int) (fuel : Nat) (w : World) (s f p x : Nat),
        x ∈ (runLoop limit true fuel w s f p).world.sleeps →
        x ∈ w.sleeps ∨ x = RETRY_DELAY) := by
  refine ⟨by decide, ?_, ?_⟩
  · intro limit fuel w
    rfl
  · intro limit fuel w s f p x h
    exact runLoop_sleeps_test limit fuel w s f p x h

/-- Claim C7 witness: a test-mode run whose item fails twice records the
retry backoff sleeps only. -/
theorem claim_C7_witness : 30 ∈ predictFailWorld.sleeps ∨ 30 = RETRY_DELAY :=
  claim_C7.2.2 none 1 predictFailWorld 0 0 0 30 (by decide)

end Trellis
